import Mathlib

/-!
Verification of the `ShardMap` core of the amazon-kinesis-producer repository.

The definitions below are a shallow embedding of `aws/kinesis/core/shard_map.cc`
(the active variant, with the heap-based `build_minimal_disjoint_hashranges`)
and of the static helpers of `aws/kinesis/core/shard_map.h`.  Machine integers
are modelled as `Nat`: hash keys are `uint128_t` values (no arithmetic in the
source can overflow 128 bits), shard ids are `uint64_t` values, and the single
place where C++ unsigned wrap-around matters (the `12 - i.length()` pad count
of `shard_id_to_str`, a `size_t` subtraction) is modelled explicitly with
`% 2 ^ 64`.  Strings are modelled as `List Char`.
-/

namespace KinesisShardMap

/-! ## Shard-id string helpers (`shard_map.h`)

`std::to_string(uint64_t)` renders the decimal digits of the value, most
significant first, with no sign and no leading zeros (`"0"` for zero).  We
model it with an explicit fuel argument (`fuel > n` always suffices because
the recursion divides by ten), so the definition is structurally recursive
and evaluates inside the kernel. -/

/-- The decimal digit character for a value `n < 10`, i.e. `'0' + n`. -/
def digitChar (n : Nat) : Char := Char.ofNat (48 + n)

/-- The numeric value of a decimal digit character, i.e. `c - '0'`. -/
def digitVal (c : Char) : Nat := c.toNat - 48

/-- Fuelled digit rendering: digits of `n`, most significant first. -/
def toDigitsAux : Nat → Nat → List Char
  | 0, _ => []
  | fuel + 1, n =>
    if n < 10 then [digitChar n]
    else toDigitsAux fuel (n / 10) ++ [digitChar (n % 10)]

/-- Model of `std::to_string(uint64_t id)`: the decimal digits of `id`. -/
def toDigits (n : Nat) : List Char := toDigitsAux (n + 1) n

/-- Model of `std::stoull` applied to an all-digit string: fold the decimal
digits into a number.  (The strings this program parses consist purely of
decimal digits, on which `stoull` is exactly this fold.) -/
def parseDec (cs : List Char) : Nat :=
  cs.foldl (fun a c => a * 10 + digitVal c) 0

/-- Modelled from the spec: `aws::utils::split_on_first` lives in
`aws/utils/utils.cc`, which is not under `src/`.  Per the spec, parsing
"splits on the first `'-'` and reads the decimal suffix back"; `parts.at(1)`
is the remainder of the string after the first occurrence of the delimiter.
This function returns that remainder (the strings fed to it always contain
the delimiter). -/
def afterFirstDelim (d : Char) : List Char → List Char
  | [] => []
  | c :: rest => if c = d then rest else afterFirstDelim d rest

/-- `ShardMap::shard_id_from_str`: split on the first `'-'` and parse the
decimal suffix (`std::stoull(parts.at(1))`). -/
def shard_id_from_str (s : List Char) : Nat :=
  parseDec (afterFirstDelim '-' s)

/-- The characters of the string literal `"shardId-"`. -/
def shardIdHeader : List Char := ['s', 'h', 'a', 'r', 'd', 'I', 'd', '-']

/-- The pad count `12 - i.length()` of `ShardMap::shard_id_to_str`, computed
in C++ `size_t` arithmetic: when `i.length() > 12` the unsigned subtraction
wraps around modulo `2 ^ 64`.  (For `uint64_t` inputs the digit count is at
most 20, so the `Nat` truncation in `2 ^ 64 + 12 - len` never fires.) -/
def padCountSizeT (id : Nat) : Nat :=
  (2 ^ 64 + 12 - (toDigits id).length) % 2 ^ 64

/-- `ShardMap::shard_id_to_str`:
`"shardId-" + std::string(12 - i.length(), '0') + i`.
The `std::string(count, '0')` constructor throws `std::length_error` when
`count` exceeds the string's maximum size; after unsigned wrap-around the
count is at least `2 ^ 64 - 8` (for `uint64_t` inputs), which always exceeds
it, so we model the constructor as failing (`none`) exactly when the pad
count is not a genuine small difference.  Any success threshold between `12`
and the library maximum denotes the same function, because the pad count is
either at most `11` or at least `2 ^ 64 - 8`. -/
def shard_id_to_str (id : Nat) : Option (List Char) :=
  let i := toDigits id
  let p := padCountSizeT id
  if p ≤ 12 then some (shardIdHeader ++ List.replicate p '0' ++ i) else none

/-! ## The range reconciler (`ShardMap::build_minimal_disjoint_hashranges`)

The active variant of `shard_map.cc` pushes every open shard into a
`std::priority_queue<ShardRange, std::vector<ShardRange>, MaxHeapComparator>`
and pops them against a descending watermark `last_starting_hashkey`,
initially `std::numeric_limits<uint128_t>::max()`. -/

/-- The `ShardRange` struct pushed into the priority queue: a shard id with
the (inclusive) `uint128_t` bounds of its hash-key range.  (The declaration
itself lives in the header of the active variant, which is not under `src/`;
its fields are exactly the three values `shard_map.cc` constructs it from.) -/
structure ShardRange where
  shard_id : Nat
  start : Nat
  endKey : Nat
deriving DecidableEq, Repr

/-- Modelled from the spec: `MaxHeapComparator` is declared in the header of
the active variant, which is not under `src/`.  Per spec §4.4 the queue pops
shards in order of decreasing ending hash key, breaking ties by decreasing
starting hash key.  `maxHeapLess a b` means `a` is ordered strictly below
`b` (so `b` pops first). -/
def maxHeapLess (a b : ShardRange) : Bool :=
  a.endKey < b.endKey || (a.endKey == b.endKey && a.start < b.start)

/-- Pop the maximum element of the queue (per `maxHeapLess`), returning it
together with the remaining elements.  Among elements whose ranges are fully
equal the earliest-inserted one pops first; spec §9 leaves that tie
deterministic-but-unspecified, and this is the first-in-first-out rule. -/
def popMax : List ShardRange → Option (ShardRange × List ShardRange)
  | [] => none
  | x :: xs =>
    match popMax xs with
    | none => some (x, [])
    | some (m, rest) => if maxHeapLess x m then some (m, x :: rest) else some (x, xs)

/-- `std::numeric_limits<uint128_t>::max()`, the initial watermark. -/
def uint128Max : Nat := 2 ^ 128 - 1

/-- The `while (!max_heap.empty())` loop of
`build_minimal_disjoint_hashranges`, with explicit fuel.  Each iteration
pops the maximal shard; if its end is below the watermark it is emitted and
the watermark drops to its start; otherwise, if it pokes below the
watermark, its end is trimmed to `watermark - 1` and it is re-inserted;
otherwise it is discarded.  Emissions are `emplace_back`s onto `acc`. -/
def reconcileLoop : Nat → List ShardRange → Nat → List (Nat × Nat) → List (Nat × Nat)
  | 0, _, _, acc => acc
  | fuel + 1, pending, lastStart, acc =>
    match popMax pending with
    | none => acc
    | some (shard, rest) =>
      if shard.endKey < lastStart then
        reconcileLoop fuel rest shard.start (acc ++ [(shard.endKey, shard.shard_id)])
      else if shard.start < lastStart then
        reconcileLoop fuel (rest ++ [{ shard with endKey := lastStart - 1 }]) lastStart acc
      else
        reconcileLoop fuel rest lastStart acc

/-- Enough fuel for `reconcileLoop`: every iteration either removes an
element or strictly decreases one element's end key, so the sum of
`endKey + 1` over the queue bounds the iteration count. -/
def reconcileFuel (l : List ShardRange) : Nat :=
  l.foldl (fun m s => m + s.endKey + 1) 0

/-- `ShardMap::build_minimal_disjoint_hashranges` as a pure function from the
open-shard list to the lookup index `end_hash_key_to_shard_id_` it builds
(starting from an empty index): run the heap loop, then
`std::reverse` the emitted vector. -/
def build_minimal_disjoint_hashranges (open_shards : List ShardRange) : List (Nat × Nat) :=
  if open_shards.isEmpty then []
  else (reconcileLoop (reconcileFuel open_shards) open_shards uint128Max []).reverse

/-! ## The `ShardMap` state machine (`shard_map.cc`)

Stateful members of the class become fields of `ShardMapState`; each member
function becomes a pure state transformer, returning the new state together
with the list of externally visible effects it performs (asynchronous
`ListShards` requests issued through the Kinesis client, and scheduling
operations on the executor).  String-to-number conversions on incoming shard
descriptors (`shard_id_from_str`, `uint128_t(string)`) are exact and are
modelled separately above; here shard descriptors already carry numeric
values.  Locks serialize the operations in the source; the model makes each
operation atomic.  `callbacks_created` is an instrumentation counter (no C++
counterpart) counting how many `ScheduledCallback` objects were ever
constructed; it changes exactly where `executor_->schedule` is called. -/

/-- The `State` enum of `shard_map.h`. -/
inductive State
  | INVALID
  | UPDATING
  | READY
deriving DecidableEq, Repr

/-- A `ScheduledCallback` handle: the delay it is currently armed with, and
whether it is armed (`cancel()` clears the flag, `reschedule` re-arms). -/
structure SchedCb where
  delay : Nat
  active : Bool
deriving DecidableEq, Repr

/-- One page of a `ListShards` response: the shard descriptors and the
continuation token (`[]` models the empty token, i.e. the last page). -/
structure ListShardsResult where
  shards : List ShardRange
  next_token : List Char
deriving DecidableEq, Repr

/-- A `ListShardsOutcome`: success with a result page, or failure (the error
code and message are only logged, so they are not modelled). -/
inductive ListShardsOutcome
  | success (r : ListShardsResult)
  | failure
deriving DecidableEq, Repr

/-- Externally visible effects of the state transformers. -/
inductive Effect
  | listShardsRequest (next_token : List Char)
  | scheduleRetry (delay : Nat)
  | rescheduleRetry (delay : Nat)
  | cancelScheduled
deriving DecidableEq, Repr

/-- The data members of `ShardMap` (time points are naturals, milliseconds
on the monotonic clock; the default-constructed `updated_at_` is `0`). -/
structure ShardMapState where
  state : State
  end_hash_key_to_shard_id : List (Nat × Nat)
  open_shards : List ShardRange
  open_shard_ids : List Nat
  shard_id_to_shard_cache : List (Nat × ShardRange)
  shard_cache_needs_cleanup : Bool
  updated_at : Nat
  min_backoff : Nat
  max_backoff : Nat
  backoff : Nat
  closed_shard_ttl : Nat
  scheduled_callback : Option SchedCb
  callbacks_created : Nat
deriving DecidableEq, Repr

/-- `std::set<uint64_t>::insert`: only membership is ever queried, so the
set is a duplicate-free list. -/
def insertShardId (ids : List Nat) (i : Nat) : List Nat :=
  if i ∈ ids then ids else ids ++ [i]

/-- `std::unordered_map::insert` does not overwrite an existing key. -/
def cacheInsert (m : List (Nat × ShardRange)) (k : Nat) (v : ShardRange) :
    List (Nat × ShardRange) :=
  match m.lookup k with
  | some _ => m
  | none => m ++ [(k, v)]

/-- `ShardMap::clear_all_stored_shards`. -/
def clear_all_stored_shards (s : ShardMapState) : ShardMapState :=
  { s with end_hash_key_to_shard_id := [], open_shards := [], open_shard_ids := [] }

/-- `ShardMap::update`: a no-op while `UPDATING`; otherwise enter
`UPDATING`, clear the staged shards, cancel any scheduled retry, and issue
the first `ListShards` page request (empty token: by stream name, with the
at-latest shard filter). -/
def update (s : ShardMapState) : ShardMapState × List Effect :=
  if s.state = State.UPDATING then (s, [])
  else
    let s1 := { clear_all_stored_shards s with state := State.UPDATING }
    match s1.scheduled_callback with
    | some cb =>
        ({ s1 with scheduled_callback := some { cb with active := false } },
         [Effect.cancelScheduled, Effect.listShardsRequest []])
    | none => (s1, [Effect.listShardsRequest []])

/-- `ShardMap::update_fail`: enter `INVALID`; schedule a retry (invoking
`update`) at the current backoff, creating the callback only if none exists
and rescheduling it otherwise; then multiply the backoff by `3 / 2`
(integer arithmetic) capped at `max_backoff`.  Nothing is thrown: the
function only transforms state and schedules work. -/
def update_fail (s : ShardMapState) : ShardMapState × List Effect :=
  let s1 := { s with state := State.INVALID }
  match s1.scheduled_callback with
  | none =>
      ({ s1 with
           scheduled_callback := some ⟨s1.backoff, true⟩,
           callbacks_created := s1.callbacks_created + 1,
           backoff := min (s1.backoff * 3 / 2) s1.max_backoff },
       [Effect.scheduleRetry s1.backoff])
  | some _ =>
      ({ s1 with
           scheduled_callback := some ⟨s1.backoff, true⟩,
           backoff := min (s1.backoff * 3 / 2) s1.max_backoff },
       [Effect.rescheduleRetry s1.backoff])

/-- The state mutation performed by the member function
`build_minimal_disjoint_hashranges`: run the heap loop (`emplace_back`ing
onto the existing `end_hash_key_to_shard_id_` vector and reversing it), and
under the cache lock flag the cache for cleanup and insert every staged
shard.  An empty staging buffer returns immediately. -/
def applyBuild (s : ShardMapState) : ShardMapState :=
  if s.open_shards.isEmpty then s
  else
    { s with
      end_hash_key_to_shard_id :=
        (reconcileLoop (reconcileFuel s.open_shards) s.open_shards uint128Max
          s.end_hash_key_to_shard_id).reverse,
      shard_id_to_shard_cache :=
        s.open_shards.foldl (fun m sh => cacheInsert m sh.shard_id sh)
          s.shard_id_to_shard_cache,
      shard_cache_needs_cleanup := true }

/-- `ShardMap::list_shards_callback` at time `now` (the
`std::chrono::steady_clock::now()` read in the final-page branch).  On
failure, defer to `update_fail`.  On success, append the page's shards to
the staging buffer and open set, reset the backoff to the minimum, and
either issue the next page request (non-empty continuation token) or build
the index, enter `READY` and stamp `updated_at`. -/
def list_shards_callback (now : Nat) (outcome : ListShardsOutcome)
    (s : ShardMapState) : ShardMapState × List Effect :=
  match outcome with
  | ListShardsOutcome.failure => update_fail s
  | ListShardsOutcome.success r =>
    let s1 := { s with
      open_shards := s.open_shards ++ r.shards,
      open_shard_ids :=
        r.shards.foldl (fun ids sh => insertShardId ids sh.shard_id) s.open_shard_ids,
      backoff := s.min_backoff }
    if r.next_token ≠ [] then (s1, [Effect.listShardsRequest r.next_token])
    else
      let s2 := applyBuild s1
      ({ s2 with state := State.READY, updated_at := now }, [])

/-- `ShardMap::invalidate`: trigger `update` only when the observation
post-dates the current view (`seen_at > updated_at_`), the state is
`READY`, and the predicted shard is absent or still in the open set. -/
def invalidate (seen_at : Nat) (predicted_shard : Option Nat)
    (s : ShardMapState) : ShardMapState × List Effect :=
  if s.updated_at < seen_at ∧ s.state = State.READY then
    match predicted_shard with
    | none => update s
    | some p => if p ∈ s.open_shard_ids then update s else (s, [])
  else (s, [])

/-- `std::lower_bound` over `end_hash_key_to_shard_id_` with comparator
`pair.first < key`: by its standard contract it returns the first position
whose end key is not less than `hash_key` (the index is in ascending end-key
order, so the range is partitioned as the contract requires); the shard id
there is returned, or `none` past the end. -/
def lower_bound_ge : List (Nat × Nat) → Nat → Option Nat
  | [], _ => none
  | (e, sid) :: rest, hash_key =>
    if e < hash_key then lower_bound_ge rest hash_key else some sid

/-- `ShardMap::shard_id`: with the read lock obtained and the state `READY`,
binary-search the index; otherwise return `boost::none`.  (The `try_lock`
contention fallback is a concurrency artefact outside this model: the model
corresponds to the lock being obtained.) -/
def shard_id (s : ShardMapState) (hash_key : Nat) : Option Nat :=
  if s.state = State.READY then lower_bound_ge s.end_hash_key_to_shard_id hash_key
  else none

/-- `ShardMap::get_shard`: look the id up in the shard cache. -/
def get_shard (s : ShardMapState) (sid : Nat) : Option ShardRange :=
  s.shard_id_to_shard_cache.lookup sid

/-- The body of one wake-up of the janitor loop (`ShardMap::cleanup`) at
time `now`: if the state is `READY`, more than `closed_shard_ttl` has
elapsed since `updated_at`, and the cache is flagged, erase every cache
entry whose shard id is not in the open set and clear the flag. -/
def cleanup_pass (now : Nat) (s : ShardMapState) : ShardMapState :=
  if s.updated_at + s.closed_shard_ttl < now ∧ s.state = State.READY then
    if s.shard_cache_needs_cleanup then
      { s with
        shard_id_to_shard_cache :=
          s.shard_id_to_shard_cache.filter (fun kv => decide (kv.1 ∈ s.open_shard_ids)),
        shard_cache_needs_cleanup := false }
    else s
  else s

/-- The `ShardMap` constructor with the given configuration: all containers
empty, state `INVALID`, backoff at the minimum, then an immediate
`update()`.  (The janitor thread it spawns is modelled by explicit
`cleanup_pass` events.) -/
def mkShardMap (min_backoff max_backoff closed_shard_ttl : Nat) :
    ShardMapState × List Effect :=
  let s : ShardMapState := {
    state := State.INVALID,
    end_hash_key_to_shard_id := [],
    open_shards := [],
    open_shard_ids := [],
    shard_id_to_shard_cache := [],
    shard_cache_needs_cleanup := false,
    updated_at := 0,
    min_backoff := min_backoff,
    max_backoff := max_backoff,
    backoff := min_backoff,
    closed_shard_ttl := closed_shard_ttl,
    scheduled_callback := none,
    callbacks_created := 0 }
  update s

/-- The events that can reach a `ShardMap` after construction: an `update`
(from the scheduled retry), a `ListShards` completion, an `invalidate` from
the retry path, or a janitor wake-up. -/
inductive Event
  | evUpdate
  | evListShardsCb (now : Nat) (outcome : ListShardsOutcome)
  | evInvalidate (seen_at : Nat) (predicted : Option Nat)
  | evCleanup (now : Nat)

/-- Apply one event to the state (discarding effects). -/
def applyEvent (s : ShardMapState) (e : Event) : ShardMapState :=
  match e with
  | Event.evUpdate => (update s).1
  | Event.evListShardsCb now o => (list_shards_callback now o s).1
  | Event.evInvalidate t p => (invalidate t p s).1
  | Event.evCleanup now => cleanup_pass now s

/-- Run a sequence of events. -/
def run (s : ShardMapState) (es : List Event) : ShardMapState :=
  es.foldl applyEvent s

/-! ## Concrete instances used by the theorems below -/

/-- The worked reshard example: parents `P1 = 0:(0-5)`, `P2 = 1:(6-10)`,
first-generation children `C1 = 3:(0-2)`, `C2 = 4:(3-5)`, `C3 = 5:(6-8)`,
`C4 = 6:(9-10)`, and the re-merged grandchild `G = 7:(3-8)` (the shard ids
are the ones of the lineage diagram in `shard_map.cc`). -/
def c1Input : List ShardRange :=
  [⟨0, 0, 5⟩, ⟨1, 6, 10⟩, ⟨3, 0, 2⟩, ⟨4, 3, 5⟩, ⟨5, 6, 8⟩, ⟨6, 9, 10⟩, ⟨7, 3, 8⟩]

/-- A single open shard covering the whole hash-key space
`[0, 2 ^ 128 - 1]`, as every non-resharding Kinesis stream reports. -/
def c2Shard : ShardRange := ⟨1, 0, 2 ^ 128 - 1⟩

/-- The state reached from the constructor (default configuration) after
one successful final `ListShards` page containing only `c2Shard`, taken at
time `100`. -/
def c2State : ShardMapState :=
  (list_shards_callback 100 (ListShardsOutcome.success ⟨[c2Shard], []⟩)
    (mkShardMap 1000 30000 60000).1).1

/-- A representative `READY` state after a successful refresh at time
`1000` with two open shards `1:(0-49)` and `2:(50-99)` (the steady-state
scenario of spec §8). -/
def testBase : ShardMapState :=
  { state := State.READY,
    end_hash_key_to_shard_id := [(49, 1), (99, 2)],
    open_shards := [⟨1, 0, 49⟩, ⟨2, 50, 99⟩],
    open_shard_ids := [1, 2],
    shard_id_to_shard_cache := [(1, ⟨1, 0, 49⟩), (2, ⟨2, 50, 99⟩)],
    shard_cache_needs_cleanup := true,
    updated_at := 1000,
    min_backoff := 1000,
    max_backoff := 30000,
    backoff := 1000,
    closed_shard_ttl := 60000,
    scheduled_callback := none,
    callbacks_created := 0 }

/-- A mid-refresh state whose backoff is still escalated from an earlier
failure: `UPDATING` (the retry's `update()` ran), backoff `1500`. -/
def c6State : ShardMapState :=
  { testBase with
      state := State.UPDATING,
      end_hash_key_to_shard_id := [],
      open_shards := [],
      open_shard_ids := [],
      backoff := 1500,
      scheduled_callback := some ⟨1000, false⟩,
      callbacks_created := 1 }

/-- A successful non-final page: one shard and a non-empty continuation
token. -/
def c6Page : ListShardsResult := ⟨[⟨9, 0, 7⟩], ['t']⟩

/-- The retry delay carried by the scheduling effect of one `update_fail`
(`executor_->schedule(..., backoff_)` or
`scheduled_callback_->reschedule(backoff_)`). -/
def retryDelay : List Effect → Option Nat
  | [Effect.scheduleRetry d] => some d
  | [Effect.rescheduleRetry d] => some d
  | _ => none

/-- At most one `ScheduledCallback` is ever constructed: the instrumentation
counter equals one exactly when the (unique, persistent) handle exists. -/
def cbInvariant (s : ShardMapState) : Prop :=
  s.callbacks_created = if s.scheduled_callback.isSome = true then 1 else 0

/-- Timing side conditions for the cache-retention property: relative to a
refresh observed at time `T` on a monotonic clock, every later `ListShards`
completion is stamped no earlier than `T`, and the janitor wake-ups under
consideration happen within `ttl` of `T`. -/
def eventOk (T ttl : Nat) : Event → Prop
  | Event.evCleanup now => now ≤ T + ttl
  | Event.evListShardsCb now _ => T ≤ now
  | _ => True

/-! ## Theorems -/

/-- Claim C1: on the seven-shard reshard input (parents `0:(0-5)`,
`1:(6-10)`, children `3:(0-2)`, `4:(3-5)`, `5:(6-8)`, `6:(9-10)`,
grandchild `7:(3-8)`), `build_minimal_disjoint_hashranges` produces the
lookup index `[(2, 3), (5, 4), (8, 5), (10, 6)]` in ascending end-hash-key
order: the first-generation children, never the grandchild `7` whose range
crosses the parent boundary. -/
theorem reconcile_worked_example :
    build_minimal_disjoint_hashranges c1Input = [(2, 3), (5, 4), (8, 5), (10, 6)] := by
  decide

/-- Claim C2 (code bug witnessed at a concrete input): for the well-formed,
fully covering refresh input consisting of the single shard `1:(0, 2^128-1)`,
the built index ends at `2^128 - 2` (the `last_starting_hashkey` sentinel,
initialized to the maximum `uint128_t`, trims the top shard), so
`shard_id` at the in-range hash key `2^128 - 1` returns `none` in the
`READY` state instead of shard `1`, which contains it. -/
theorem full_range_shard_lookup_gap :
    c2State.state = State.READY ∧
    c2State.end_hash_key_to_shard_id = [(2 ^ 128 - 2, 1)] ∧
    shard_id c2State (2 ^ 128 - 1) = none ∧
    c2Shard.start ≤ 2 ^ 128 - 1 ∧ 2 ^ 128 - 1 ≤ c2Shard.endKey := by
  decide

/-- Claim C5: whenever the state is `UPDATING`, `update()` returns
immediately: the state (staging buffer, scheduled callback, and all other
fields) is untouched and no request is issued. -/
theorem update_noop_when_updating (s : ShardMapState)
    (h : s.state = State.UPDATING) : update s = (s, []) := by
  simp [update, h]

/-- Witness for C5 at a concrete `UPDATING` state. -/
theorem update_noop_when_updating_witness :
    ({ testBase with state := State.UPDATING } : ShardMapState).state = State.UPDATING ∧
    update { testBase with state := State.UPDATING } =
      ({ testBase with state := State.UPDATING }, []) :=
  ⟨rfl, update_noop_when_updating _ rfl⟩

/-- Helper: whenever the state is not `UPDATING`, `update` issues the
first-page `ListShards` request. -/
theorem update_issues_request (s : ShardMapState)
    (h : ¬ s.state = State.UPDATING) :
    Effect.listShardsRequest [] ∈ (update s).2 := by
  cases h2 : s.scheduled_callback with
  | none => simp [update, if_neg h, clear_all_stored_shards, h2]
  | some cb => simp [update, if_neg h, clear_all_stored_shards, h2]

/-- Claim C3: `invalidate(seen_at, predicted_shard)` issues a refresh (the
first-page request of the `update` it calls) if and only if `seen_at`
post-dates `updated_at`, the state is `READY`, and the predicted shard is
absent or still in the open set of the most recent successful refresh; and
when any condition fails the whole state (in particular the state flag, the
lookup index, and the backoff) is left unchanged with no effects. -/
theorem invalidate_refresh_iff (seen_at : Nat) (p : Option Nat)
    (s : ShardMapState) :
    (Effect.listShardsRequest [] ∈ (invalidate seen_at p s).2 ↔
      (s.updated_at < seen_at ∧ s.state = State.READY ∧
        (p = none ∨ ∃ x, p = some x ∧ x ∈ s.open_shard_ids))) ∧
    (¬(s.updated_at < seen_at ∧ s.state = State.READY ∧
        (p = none ∨ ∃ x, p = some x ∧ x ∈ s.open_shard_ids)) →
      invalidate seen_at p s = (s, [])) := by
  have hready : s.state = State.READY → ¬ s.state = State.UPDATING := by
    intro h hc; rw [h] at hc; cases hc
  constructor
  · constructor
    · intro hmem
      by_cases hc : s.updated_at < seen_at ∧ s.state = State.READY
      · cases p with
        | none => exact ⟨hc.1, hc.2, Or.inl rfl⟩
        | some x =>
          by_cases hx : x ∈ s.open_shard_ids
          · exact ⟨hc.1, hc.2, Or.inr ⟨x, rfl, hx⟩⟩
          · exfalso
            unfold invalidate at hmem
            rw [if_pos hc] at hmem
            simp only [if_neg hx] at hmem
            simp at hmem
      · exfalso
        unfold invalidate at hmem
        rw [if_neg hc] at hmem
        simp at hmem
    · rintro ⟨h1, h2, h3⟩
      unfold invalidate
      rw [if_pos ⟨h1, h2⟩]
      have hupd := update_issues_request s (hready h2)
      rcases h3 with h3 | ⟨x, hpx, hx⟩
      · rw [h3]; exact hupd
      · rw [hpx]; simpa [if_pos hx] using hupd
  · intro hn
    unfold invalidate
    by_cases hc : s.updated_at < seen_at ∧ s.state = State.READY
    · rw [if_pos hc]
      cases p with
      | none => exact absurd ⟨hc.1, hc.2, Or.inl rfl⟩ hn
      | some x =>
        have hx : x ∉ s.open_shard_ids := fun hmem =>
          hn ⟨hc.1, hc.2, Or.inr ⟨x, rfl, hmem⟩⟩
        simp only [if_neg hx]
    · rw [if_neg hc]

/-- Witness for C3: after the successful refresh at time `1000` recorded in
`testBase`, `invalidate(999, some 1)` (one millisecond before the refresh,
predicted shard still open) triggers nothing and leaves the state
untouched, while `invalidate(1001, none)` issues a refresh request. -/
theorem invalidate_refresh_iff_witness :
    invalidate 999 (some 1) testBase = (testBase, []) ∧
    Effect.listShardsRequest [] ∈ (invalidate 1001 none testBase).2 :=
  ⟨(invalidate_refresh_iff 999 (some 1) testBase).2 (by decide),
   (invalidate_refresh_iff 1001 none testBase).1.mpr
     ⟨by decide, by decide, Or.inl rfl⟩⟩

/-- Counterexample to Claim C6 as stated: a successful non-final page (its
continuation token is non-empty) nevertheless changes the backoff value
(the code resets `backoff_` to `min_backoff_` on every successful page, not
only on the final one). -/
theorem nonfinal_page_changes_backoff :
    c6Page.next_token ≠ [] ∧
    (list_shards_callback 2000 (ListShardsOutcome.success c6Page) c6State).1.backoff ≠
      c6State.backoff := by
  decide

/-- Claim C6 as amended: when a successful page arrives with a non-empty
continuation token, the only effects are appending the page's shards to the
staging buffer and open set, resetting the backoff to `min_backoff`, and
issuing the next page request; the state flag, lookup index, `updated_at`,
shard cache, cleanup flag, and scheduled callback are unchanged. -/
theorem nonfinal_page_frame (now : Nat) (r : ListShardsResult)
    (s : ShardMapState) (h : r.next_token ≠ []) :
    list_shards_callback now (ListShardsOutcome.success r) s =
      ({ s with
           open_shards := s.open_shards ++ r.shards,
           open_shard_ids :=
             r.shards.foldl (fun ids sh => insertShardId ids sh.shard_id)
               s.open_shard_ids,
           backoff := s.min_backoff },
       [Effect.listShardsRequest r.next_token]) := by
  simp [list_shards_callback, h]

/-- Witness for the amended C6 at a concrete mid-refresh state and page. -/
theorem nonfinal_page_frame_witness :
    c6Page.next_token ≠ [] ∧
    list_shards_callback 2000 (ListShardsOutcome.success c6Page) c6State =
      ({ c6State with
           open_shards := c6State.open_shards ++ c6Page.shards,
           open_shard_ids :=
             c6Page.shards.foldl (fun ids sh => insertShardId ids sh.shard_id)
               c6State.open_shard_ids,
           backoff := c6State.min_backoff },
       [Effect.listShardsRequest c6Page.next_token]) :=
  ⟨by decide, nonfinal_page_frame 2000 c6Page c6State (by decide)⟩

/-- Helper: the state fields written by `update_fail`. -/
theorem update_fail_state_fields (s : ShardMapState) :
    (update_fail s).1.state = State.INVALID ∧
    (update_fail s).1.scheduled_callback = some ⟨s.backoff, true⟩ ∧
    (update_fail s).1.backoff = min (s.backoff * 3 / 2) s.max_backoff ∧
    (update_fail s).1.min_backoff = s.min_backoff ∧
    (update_fail s).1.max_backoff = s.max_backoff := by
  cases h : s.scheduled_callback <;>
    simp [update_fail, h]

/-- Helper: `update_fail` always schedules exactly the current backoff. -/
theorem retryDelay_update_fail (s : ShardMapState) :
    retryDelay (update_fail s).2 = some s.backoff := by
  cases h : s.scheduled_callback <;>
    simp [update_fail, h, retryDelay]

/-- Helper: every successful page resets the backoff to the minimum. -/
theorem success_page_backoff (now : Nat) (r : ListShardsResult)
    (s : ShardMapState) :
    (list_shards_callback now (ListShardsOutcome.success r) s).1.backoff =
      s.min_backoff := by
  unfold list_shards_callback
  by_cases h : r.next_token ≠ []
  · simp [h]
  · simp only [h, if_false, if_neg h]
    unfold applyBuild
    split <;> simp

/-- Claim C4: with the default configuration (`min_backoff = 1000`,
`max_backoff = 30000`) and the backoff at its reset value, three
consecutive failed refresh attempts schedule retries with delays exactly
`1000`, `1500`, `2250` ms (each next backoff is
`min(previous * 3 / 2, max_backoff)`); in general every scheduled delay
lies in `[min_backoff, max_backoff]` and that interval membership is
preserved by each failure; and after any subsequent successful page the
next failure again schedules `min_backoff = 1000` ms. -/
theorem backoff_schedule_spec (s : ShardMapState)
    (hmin : s.min_backoff = 1000) (hmax : s.max_backoff = 30000)
    (hb : s.backoff = 1000) :
    (retryDelay (update_fail s).2 = some 1000 ∧
     retryDelay (update_fail (update_fail s).1).2 = some 1500 ∧
     retryDelay (update_fail (update_fail (update_fail s).1).1).2 = some 2250) ∧
    (∀ t : ShardMapState, t.min_backoff ≤ t.backoff → t.backoff ≤ t.max_backoff →
       retryDelay (update_fail t).2 = some t.backoff ∧
       (update_fail t).1.min_backoff = t.min_backoff ∧
       (update_fail t).1.max_backoff = t.max_backoff ∧
       t.min_backoff ≤ (update_fail t).1.backoff ∧
       (update_fail t).1.backoff ≤ t.max_backoff) ∧
    (∀ (now : Nat) (r : ListShardsResult) (t : ShardMapState),
       t.min_backoff = 1000 →
       retryDelay
         (update_fail
           (list_shards_callback now (ListShardsOutcome.success r) t).1).2 =
         some 1000) := by
  refine ⟨⟨?_, ?_, ?_⟩, ?_, ?_⟩
  · rw [retryDelay_update_fail, hb]
  · rw [retryDelay_update_fail, (update_fail_state_fields s).2.2.1, hb, hmax]
    norm_num
  · rw [retryDelay_update_fail, (update_fail_state_fields (update_fail s).1).2.2.1,
      (update_fail_state_fields s).2.2.1, (update_fail_state_fields s).2.2.2.2,
      hb, hmax]
    norm_num
  · intro t h1 h2
    have hmono : t.backoff ≤ t.backoff * 3 / 2 := by
      rw [Nat.le_div_iff_mul_le (by norm_num : (0:ℕ) < 2)]
      exact Nat.mul_le_mul_left t.backoff (by norm_num)
    refine ⟨retryDelay_update_fail t, (update_fail_state_fields t).2.2.2.1,
      (update_fail_state_fields t).2.2.2.2, ?_, ?_⟩
    · rw [(update_fail_state_fields t).2.2.1]
      exact le_min (le_trans h1 hmono) (le_trans h1 h2)
    · rw [(update_fail_state_fields t).2.2.1]
      exact min_le_right _ _
  · intro now r t ht
    rw [retryDelay_update_fail, success_page_backoff, ht]

/-- Witness for C4 at the concrete post-refresh state `testBase`
(defaults, backoff reset to `1000`). -/
theorem backoff_schedule_spec_witness :
    testBase.min_backoff = 1000 ∧ testBase.max_backoff = 30000 ∧
    testBase.backoff = 1000 ∧
    retryDelay (update_fail testBase).2 = some 1000 ∧
    retryDelay (update_fail (update_fail testBase).1).2 = some 1500 ∧
    retryDelay (update_fail (update_fail (update_fail testBase).1).1).2 =
      some 2250 :=
  ⟨rfl, rfl, rfl,
    (backoff_schedule_spec testBase rfl rfl rfl).1.1,
    (backoff_schedule_spec testBase rfl rfl rfl).1.2.1,
    (backoff_schedule_spec testBase rfl rfl rfl).1.2.2⟩

/-- Helper: `applyBuild` touches only the lookup index, the cache, and the
cleanup flag. -/
theorem applyBuild_frame (t : ShardMapState) :
    (applyBuild t).state = t.state ∧
    (applyBuild t).updated_at = t.updated_at ∧
    (applyBuild t).backoff = t.backoff ∧
    (applyBuild t).min_backoff = t.min_backoff ∧
    (applyBuild t).max_backoff = t.max_backoff ∧
    (applyBuild t).closed_shard_ttl = t.closed_shard_ttl ∧
    (applyBuild t).scheduled_callback = t.scheduled_callback ∧
    (applyBuild t).callbacks_created = t.callbacks_created ∧
    (applyBuild t).open_shard_ids = t.open_shard_ids := by
  unfold applyBuild
  split <;> simp

/-- Helper: `update` preserves the callback-count invariant. -/
theorem cbInvariant_update (s : ShardMapState) (h : cbInvariant s) :
    cbInvariant (update s).1 := by
  unfold cbInvariant at *
  by_cases hu : s.state = State.UPDATING
  · simp [update, hu, h]
  · cases h2 : s.scheduled_callback with
    | none =>
      simp [h2] at h
      simp [update, hu, clear_all_stored_shards, h2, h]
    | some cb =>
      simp [h2] at h
      simp [update, hu, clear_all_stored_shards, h2, h]

/-- Helper: `update_fail` preserves the callback-count invariant (it creates
the callback only when none exists). -/
theorem cbInvariant_update_fail (s : ShardMapState) (h : cbInvariant s) :
    cbInvariant (update_fail s).1 := by
  unfold cbInvariant at *
  cases h2 : s.scheduled_callback with
  | none =>
    simp [h2] at h
    simp [update_fail, h2, h]
  | some cb =>
    simp [h2] at h
    simp [update_fail, h2, h]

/-- Helper: the callback-count invariant only reads two fields. -/
theorem cbInvariant_of_eq (a b : ShardMapState)
    (h1 : a.callbacks_created = b.callbacks_created)
    (h2 : a.scheduled_callback = b.scheduled_callback)
    (h : cbInvariant b) : cbInvariant a := by
  unfold cbInvariant at *
  rw [h1, h2]
  exact h

/-- Helper: a successful page leaves the scheduled callback and the
callback count untouched. -/
theorem callback_success_cb_fields (now : Nat) (r : ListShardsResult)
    (s : ShardMapState) :
    (list_shards_callback now (ListShardsOutcome.success r) s).1.callbacks_created =
      s.callbacks_created ∧
    (list_shards_callback now (ListShardsOutcome.success r) s).1.scheduled_callback =
      s.scheduled_callback := by
  unfold list_shards_callback
  by_cases ht : r.next_token ≠ []
  · simp [ht]
  · simp only [if_neg ht]
    constructor
    · show (applyBuild _).callbacks_created = _
      rw [(applyBuild_frame _).2.2.2.2.2.2.2.1]
    · show (applyBuild _).scheduled_callback = _
      rw [(applyBuild_frame _).2.2.2.2.2.2.1]

/-- Helper: `list_shards_callback` preserves the callback-count invariant. -/
theorem cbInvariant_callback (now : Nat) (o : ListShardsOutcome)
    (s : ShardMapState) (h : cbInvariant s) :
    cbInvariant (list_shards_callback now o s).1 := by
  cases o with
  | failure => exact cbInvariant_update_fail s h
  | success r =>
    exact cbInvariant_of_eq _ s (callback_success_cb_fields now r s).1
      (callback_success_cb_fields now r s).2 h

/-- Helper: `invalidate` preserves the callback-count invariant. -/
theorem cbInvariant_invalidate (t p : _) (s : ShardMapState)
    (h : cbInvariant s) : cbInvariant (invalidate t p s).1 := by
  unfold invalidate
  by_cases hc : s.updated_at < t ∧ s.state = State.READY
  · rw [if_pos hc]
    cases p with
    | none => exact cbInvariant_update s h
    | some x =>
      by_cases hx : x ∈ s.open_shard_ids
      · simp only [if_pos hx]
        exact cbInvariant_update s h
      · simpa only [if_neg hx] using h
  · rw [if_neg hc]
    exact h

/-- Helper: the janitor pass preserves the callback-count invariant. -/
theorem cbInvariant_cleanup (now : Nat) (s : ShardMapState)
    (h : cbInvariant s) : cbInvariant (cleanup_pass now s) := by
  unfold cbInvariant at *
  unfold cleanup_pass
  split
  · split <;> simp [h]
  · exact h

/-- Helper: every event preserves the callback-count invariant. -/
theorem cbInvariant_applyEvent (s : ShardMapState) (e : Event)
    (h : cbInvariant s) : cbInvariant (applyEvent s e) := by
  cases e with
  | evUpdate => exact cbInvariant_update s h
  | evListShardsCb now o => exact cbInvariant_callback now o s h
  | evInvalidate t p => exact cbInvariant_invalidate t p s h
  | evCleanup now => exact cbInvariant_cleanup now s h

/-- Helper: the callback-count invariant is preserved along any run. -/
theorem cbInvariant_run (es : List Event) :
    ∀ s : ShardMapState, cbInvariant s → cbInvariant (run s es) := by
  induction es with
  | nil => intro s h; exact h
  | cons e rest ih =>
    intro s h
    exact ih (applyEvent s e) (cbInvariant_applyEvent s e h)

/-- Helper: the constructed `ShardMap` satisfies the callback-count
invariant. -/
theorem cbInvariant_mkShardMap (minB maxB ttl : Nat) :
    cbInvariant (mkShardMap minB maxB ttl).1 := by
  unfold mkShardMap
  exact cbInvariant_update _ (by unfold cbInvariant; simp)

/-- Claim C7: a failed `ListShards` page puts the map into `INVALID` and
(re)schedules the retry callback, armed with the current backoff delay —
rescheduling the existing handle when one exists rather than creating a
second one, so along every event sequence from construction at most one
`ScheduledCallback` is ever created; the callback only transforms state and
schedules work (no error is surfaced). -/
theorem update_fail_schedules_single_retry :
    (∀ (now : Nat) (s : ShardMapState),
       (list_shards_callback now ListShardsOutcome.failure s).1.state =
         State.INVALID ∧
       (list_shards_callback now ListShardsOutcome.failure s).1.scheduled_callback =
         some ⟨s.backoff, true⟩ ∧
       (list_shards_callback now ListShardsOutcome.failure s).2 =
         [match s.scheduled_callback with
           | none => Effect.scheduleRetry s.backoff
           | some _ => Effect.rescheduleRetry s.backoff]) ∧
    (∀ (minB maxB ttl : Nat) (es : List Event),
       (run (mkShardMap minB maxB ttl).1 es).callbacks_created ≤ 1) := by
  constructor
  · intro now s
    refine ⟨(update_fail_state_fields s).1, (update_fail_state_fields s).2.1, ?_⟩
    show (update_fail s).2 = _
    cases h : s.scheduled_callback <;> simp [update_fail, h]
  · intro minB maxB ttl es
    have h := cbInvariant_run es (mkShardMap minB maxB ttl).1
      (cbInvariant_mkShardMap minB maxB ttl)
    unfold cbInvariant at h
    rw [h]
    split <;> omega

/-- Helper: an existing binding survives appending entries on the right. -/
theorem lookup_append_some (m l : List (Nat × ShardRange)) (k : Nat)
    (d : ShardRange) (h : m.lookup k = some d) : (m ++ l).lookup k = some d := by
  induction m with
  | nil => simp [List.lookup] at h
  | cons p rest ih =>
    cases p with
    | mk pk pv =>
      cases hk : (k == pk) with
      | true =>
        simp only [List.cons_append, List.lookup, hk] at h ⊢
        exact h
      | false =>
        simp only [List.cons_append, List.lookup, hk] at h ⊢
        exact ih h

/-- Helper: `cacheInsert` never disturbs an existing binding. -/
theorem cacheInsert_preserves (m : List (Nat × ShardRange)) (k' : Nat)
    (v : ShardRange) (k : Nat) (d : ShardRange) (h : m.lookup k = some d) :
    (cacheInsert m k' v).lookup k = some d := by
  unfold cacheInsert
  cases h2 : m.lookup k' with
  | some w => exact h
  | none => exact lookup_append_some m [(k', v)] k d h

/-- Helper: the cache-population fold never disturbs an existing binding. -/
theorem cacheFold_preserves (shards : List ShardRange) :
    ∀ (m : List (Nat × ShardRange)) (k : Nat) (d : ShardRange),
      m.lookup k = some d →
      (shards.foldl (fun mm sh => cacheInsert mm sh.shard_id sh) m).lookup k =
        some d := by
  induction shards with
  | nil => intro m k d h; exact h
  | cons sh rest ih =>
    intro m k d h
    exact ih _ k d (cacheInsert_preserves m sh.shard_id sh k d h)

/-- Helper: `applyBuild` never disturbs an existing cache binding. -/
theorem applyBuild_cache_preserves (t : ShardMapState) (k : Nat)
    (d : ShardRange) (h : t.shard_id_to_shard_cache.lookup k = some d) :
    (applyBuild t).shard_id_to_shard_cache.lookup k = some d := by
  unfold applyBuild
  split
  · exact h
  · exact cacheFold_preserves t.open_shards t.shard_id_to_shard_cache k d h

/-- Helper: `update` touches neither the cache, `updated_at`, nor the TTL. -/
theorem update_frame (s : ShardMapState) :
    (update s).1.shard_id_to_shard_cache = s.shard_id_to_shard_cache ∧
    (update s).1.updated_at = s.updated_at ∧
    (update s).1.closed_shard_ttl = s.closed_shard_ttl := by
  unfold update
  by_cases hu : s.state = State.UPDATING
  · simp [hu]
  · cases h2 : s.scheduled_callback <;>
      simp [hu, clear_all_stored_shards, h2]

/-- Helper: `update_fail` touches neither the cache, `updated_at`, nor the
TTL. -/
theorem update_fail_frame (s : ShardMapState) :
    (update_fail s).1.shard_id_to_shard_cache = s.shard_id_to_shard_cache ∧
    (update_fail s).1.updated_at = s.updated_at ∧
    (update_fail s).1.closed_shard_ttl = s.closed_shard_ttl := by
  cases h : s.scheduled_callback <;> simp [update_fail, h]

/-- Helper: `invalidate` touches neither the cache, `updated_at`, nor the
TTL. -/
theorem invalidate_frame (t : Nat) (p : Option Nat) (s : ShardMapState) :
    (invalidate t p s).1.shard_id_to_shard_cache = s.shard_id_to_shard_cache ∧
    (invalidate t p s).1.updated_at = s.updated_at ∧
    (invalidate t p s).1.closed_shard_ttl = s.closed_shard_ttl := by
  unfold invalidate
  by_cases hc : s.updated_at < t ∧ s.state = State.READY
  · rw [if_pos hc]
    cases p with
    | none => exact update_frame s
    | some x =>
      by_cases hx : x ∈ s.open_shard_ids
      · simp only [if_pos hx]
        exact update_frame s
      · simp only [if_neg hx]
        simp
  · rw [if_neg hc]
    simp

/-- Helper: one event keeps a cached descriptor, keeps `updated_at` at or
after `T`, and keeps the TTL, under the timing conditions of `eventOk`. -/
theorem retention_step (T : Nat) (e : Event) (s : ShardMapState) (sid : Nat)
    (d : ShardRange) (h1 : get_shard s sid = some d) (h2 : T ≤ s.updated_at)
    (hok : eventOk T s.closed_shard_ttl e) :
    get_shard (applyEvent s e) sid = some d ∧
    T ≤ (applyEvent s e).updated_at ∧
    (applyEvent s e).closed_shard_ttl = s.closed_shard_ttl := by
  cases e with
  | evUpdate =>
    simp only [applyEvent]
    refine ⟨?_, ?_, (update_frame s).2.2⟩
    · show (update s).1.shard_id_to_shard_cache.lookup sid = some d
      rw [(update_frame s).1]
      exact h1
    · rw [(update_frame s).2.1]
      exact h2
  | evInvalidate t p =>
    simp only [applyEvent]
    refine ⟨?_, ?_, (invalidate_frame t p s).2.2⟩
    · show (invalidate t p s).1.shard_id_to_shard_cache.lookup sid = some d
      rw [(invalidate_frame t p s).1]
      exact h1
    · rw [(invalidate_frame t p s).2.1]
      exact h2
  | evListShardsCb now o =>
    simp only [applyEvent]
    cases o with
    | failure =>
      refine ⟨?_, ?_, (update_fail_frame s).2.2⟩
      · show (update_fail s).1.shard_id_to_shard_cache.lookup sid = some d
        rw [(update_fail_frame s).1]
        exact h1
      · show T ≤ (update_fail s).1.updated_at
        rw [(update_fail_frame s).2.1]
        exact h2
    | success r =>
      have hnow : T ≤ now := hok
      unfold list_shards_callback
      by_cases ht : r.next_token ≠ []
      · simp only [if_pos ht]
        exact ⟨h1, h2, trivial⟩
      · simp only [if_neg ht]
        refine ⟨?_, hnow, ?_⟩
        · show (applyBuild _).shard_id_to_shard_cache.lookup sid = some d
          exact applyBuild_cache_preserves _ sid d h1
        · show (applyBuild _).closed_shard_ttl = s.closed_shard_ttl
          rw [(applyBuild_frame _).2.2.2.2.2.1]
  | evCleanup now =>
    simp only [applyEvent]
    have hno : ¬(s.updated_at + s.closed_shard_ttl < now ∧
        s.state = State.READY) := by
      rintro ⟨hlt, -⟩
      have hok2 : now ≤ T + s.closed_shard_ttl := hok
      omega
    unfold cleanup_pass
    rw [if_neg hno]
    exact ⟨h1, h2, rfl⟩

/-- Helper: retention along a whole run. -/
theorem retention_run (T : Nat) (es : List Event) :
    ∀ (s : ShardMapState) (sid : Nat) (d : ShardRange),
      get_shard s sid = some d → T ≤ s.updated_at →
      (∀ e ∈ es, eventOk T s.closed_shard_ttl e) →
      get_shard (run s es) sid = some d := by
  induction es with
  | nil =>
    intro s sid d h1 h2 hok
    exact h1
  | cons e rest ih =>
    intro s sid d h1 h2 hok
    have hstep := retention_step T e s sid d h1 h2 (hok e (List.mem_cons_self e rest))
    have htail : ∀ e' ∈ rest, eventOk T (applyEvent s e).closed_shard_ttl e' := by
      intro e' he'
      rw [hstep.2.2]
      exact hok e' (List.mem_cons_of_mem e he')
    have := ih (applyEvent s e) sid d hstep.1 hstep.2.1 htail
    simpa [run, List.foldl] using this

/-- Helper: if `sid` is still in the open set, the janitor filter keeps
every binding of `sid`. -/
theorem lookup_filter_mem (m : List (Nat × ShardRange)) (ids : List Nat)
    (sid : Nat) (hmem : sid ∈ ids) :
    (m.filter (fun kv => decide (kv.1 ∈ ids))).lookup sid = m.lookup sid := by
  induction m with
  | nil => simp
  | cons p rest ih =>
    cases p with
    | mk pk pv =>
      by_cases hp : pk ∈ ids
      · cases hk : (sid == pk) with
        | true => simp [List.filter, List.lookup, hp, hk]
        | false => simp [List.filter, List.lookup, hp, hk, ih]
      · have hne : (sid == pk) = false := by
          rw [beq_eq_false_iff_ne]
          intro hEq
          rw [hEq] at hmem
          exact hp hmem
        simp [List.filter, List.lookup, hp, hne, ih]

/-- Claim C8: a janitor pass removes a cache entry only when the state is
`READY`, more than `closed_shard_ttl` has elapsed since `updated_at`, the
cleanup flag is set, and the entry's shard id is absent from the current
open set; consequently, for a shard cached by a refresh observed at time
`T`, `get_shard` keeps returning its descriptor through any sequence of
events whose janitor wake-ups happen within `closed_shard_ttl` of `T` (and
whose refreshes are stamped at or after `T` by the monotonic clock). -/
theorem cleanup_only_when_and_retention :
    (∀ (now : Nat) (s : ShardMapState) (sid : Nat),
       (get_shard s sid).isSome = true →
       (get_shard (cleanup_pass now s) sid).isSome = false →
       s.state = State.READY ∧ s.updated_at + s.closed_shard_ttl < now ∧
       s.shard_cache_needs_cleanup = true ∧ sid ∉ s.open_shard_ids) ∧
    (∀ (T : Nat) (es : List Event) (s : ShardMapState) (sid : Nat)
       (d : ShardRange),
       get_shard s sid = some d → T ≤ s.updated_at →
       (∀ e ∈ es, eventOk T s.closed_shard_ttl e) →
       get_shard (run s es) sid = some d) := by
  constructor
  · intro now s sid hsome hnone
    by_cases hc : s.updated_at + s.closed_shard_ttl < now ∧
        s.state = State.READY
    · by_cases hf : s.shard_cache_needs_cleanup
      · refine ⟨hc.2, hc.1, hf, ?_⟩
        intro hmem
        unfold cleanup_pass at hnone
        rw [if_pos hc, if_pos hf] at hnone
        have heq :
            (s.shard_id_to_shard_cache.filter
              (fun kv => decide (kv.1 ∈ s.open_shard_ids))).lookup sid =
              s.shard_id_to_shard_cache.lookup sid :=
          lookup_filter_mem s.shard_id_to_shard_cache s.open_shard_ids sid hmem
        unfold get_shard at hsome hnone
        rw [heq] at hnone
        rw [hnone] at hsome
        cases hsome
      · exfalso
        unfold cleanup_pass at hnone
        rw [if_pos hc, if_neg hf] at hnone
        rw [hnone] at hsome
        cases hsome
    · exfalso
      unfold cleanup_pass at hnone
      rw [if_neg hc] at hnone
      rw [hnone] at hsome
      cases hsome
  · intro T es s sid d h1 h2 hok
    exact retention_run T es s sid d h1 h2 hok

/-- Witness for C8: at a concrete `READY` state refreshed at time `1000`
whose open set no longer contains shard `7`, a janitor pass at time `70000`
removes `7` (all four conditions concluded via the theorem); and along a
run containing a janitor tick at time `50000` (within the TTL window of the
refresh) shard `7` is still returned. -/
theorem cleanup_only_when_and_retention_witness :
    (({ testBase with
          shard_id_to_shard_cache :=
            (7, ⟨7, 0, 9⟩) :: testBase.shard_id_to_shard_cache } :
        ShardMapState).state = State.READY ∧
      ({ testBase with
          shard_id_to_shard_cache :=
            (7, ⟨7, 0, 9⟩) :: testBase.shard_id_to_shard_cache } :
        ShardMapState).updated_at +
        ({ testBase with
            shard_id_to_shard_cache :=
              (7, ⟨7, 0, 9⟩) :: testBase.shard_id_to_shard_cache } :
          ShardMapState).closed_shard_ttl < 70000 ∧
      ({ testBase with
          shard_id_to_shard_cache :=
            (7, ⟨7, 0, 9⟩) :: testBase.shard_id_to_shard_cache } :
        ShardMapState).shard_cache_needs_cleanup = true ∧
      7 ∉ ({ testBase with
          shard_id_to_shard_cache :=
            (7, ⟨7, 0, 9⟩) :: testBase.shard_id_to_shard_cache } :
        ShardMapState).open_shard_ids) ∧
    get_shard
      (run { testBase with
               shard_id_to_shard_cache :=
                 (7, ⟨7, 0, 9⟩) :: testBase.shard_id_to_shard_cache }
        [Event.evCleanup 50000]) 7 = some ⟨7, 0, 9⟩ :=
  ⟨cleanup_only_when_and_retention.1 70000
      { testBase with
          shard_id_to_shard_cache :=
            (7, ⟨7, 0, 9⟩) :: testBase.shard_id_to_shard_cache } 7
      (by decide) (by decide),
   cleanup_only_when_and_retention.2 1000 [Event.evCleanup 50000]
      { testBase with
          shard_id_to_shard_cache :=
            (7, ⟨7, 0, 9⟩) :: testBase.shard_id_to_shard_cache } 7 ⟨7, 0, 9⟩
      (by decide) (by decide)
      (by
        intro e he
        simp only [List.mem_singleton] at he
        rw [he]
        show (50000 : Nat) ≤ 1000 + 60000
        decide)⟩

/-- Helper: `digitVal` inverts `digitChar` on decimal digits. -/
theorem digitVal_digitChar : ∀ m, m < 10 → digitVal (digitChar m) = m := by
  decide

/-- Helper: folding one more digit. -/
theorem parseDec_snoc (xs : List Char) (c : Char) :
    parseDec (xs ++ [c]) = parseDec xs * 10 + digitVal c := by
  unfold parseDec
  rw [List.foldl_append]
  rfl

/-- Helper: leading zeros do not change the parsed value. -/
theorem parseDec_replicate_zero (p : Nat) (xs : List Char) :
    parseDec (List.replicate p '0' ++ xs) = parseDec xs := by
  induction p with
  | zero => simp
  | succ n ih =>
    rw [List.replicate_succ, List.cons_append]
    unfold parseDec at *
    simp only [List.foldl_cons]
    have h0 : (0 : Nat) * 10 + digitVal '0' = 0 := by decide
    rw [h0]
    exact ih

/-- Helper: parsing inverts digit rendering. -/
theorem parseDec_toDigitsAux : ∀ f n, n < f → parseDec (toDigitsAux f n) = n := by
  intro f
  induction f with
  | zero => intro n h; exact absurd h (Nat.not_lt_zero n)
  | succ f ih =>
    intro n h
    unfold toDigitsAux
    by_cases h10 : n < 10
    · rw [if_pos h10]
      show parseDec [digitChar n] = n
      unfold parseDec
      simp only [List.foldl_cons, List.foldl_nil]
      have hv := digitVal_digitChar n h10
      omega
    · rw [if_neg h10]
      rw [parseDec_snoc]
      have hlt : n / 10 < f := by
        have hd : n / 10 < n := Nat.div_lt_self (by omega) (by norm_num)
        omega
      rw [ih (n / 10) hlt]
      rw [digitVal_digitChar (n % 10) (Nat.mod_lt n (by norm_num))]
      omega

/-- Helper: splitting on the first dash strips exactly the
`"shardId-"` header. -/
theorem afterFirstDelim_header (xs : List Char) :
    afterFirstDelim '-' (shardIdHeader ++ xs) = xs := by
  rfl

/-- Helper: digit-count upper bound, `n < 10 ^ (k + 1)` gives at most
`k + 1` digits. -/
theorem toDigitsAux_length_le : ∀ f n k, n < f → n < 10 ^ (k + 1) →
    (toDigitsAux f n).length ≤ k + 1 := by
  intro f
  induction f with
  | zero => intro n k h hk; exact absurd h (Nat.not_lt_zero n)
  | succ f ih =>
    intro n k h hk
    unfold toDigitsAux
    by_cases h10 : n < 10
    · rw [if_pos h10]
      simp
    · rw [if_neg h10]
      rw [List.length_append]
      cases k with
      | zero =>
        rw [pow_one] at hk
        omega
      | succ k2 =>
        have hdiv : n / 10 < 10 ^ (k2 + 1) := by
          rw [Nat.div_lt_iff_lt_mul (by norm_num : (0:ℕ) < 10)]
          calc n < 10 ^ (k2 + 1 + 1) := hk
          _ = 10 ^ (k2 + 1) * 10 := by rw [pow_succ]
        have hf : n / 10 < f := by
          have hd : n / 10 < n := Nat.div_lt_self (by omega) (by norm_num)
          omega
        have hle := ih (n / 10) k2 hf hdiv
        simp only [List.length_singleton]
        omega

/-- Helper: digit-count lower bound, `10 ^ k ≤ n` forces at least `k + 1`
digits. -/
theorem toDigitsAux_length_ge : ∀ f n k, n < f → 10 ^ k ≤ n →
    k + 1 ≤ (toDigitsAux f n).length := by
  intro f
  induction f with
  | zero => intro n k h hk; exact absurd h (Nat.not_lt_zero n)
  | succ f ih =>
    intro n k h hk
    unfold toDigitsAux
    by_cases h10 : n < 10
    · rw [if_pos h10]
      cases k with
      | zero => simp
      | succ k2 =>
        exfalso
        have hten : 10 ≤ 10 ^ (k2 + 1) := by
          calc (10:ℕ) = 10 ^ 1 := (pow_one 10).symm
          _ ≤ 10 ^ (k2 + 1) := Nat.pow_le_pow_right (by norm_num) (by omega)
        omega
    · rw [if_neg h10]
      rw [List.length_append]
      cases k with
      | zero => simp only [List.length_singleton]; omega
      | succ k2 =>
        have hge : 10 ^ k2 ≤ n / 10 := by
          rw [Nat.le_div_iff_mul_le (by norm_num : (0:ℕ) < 10)]
          calc 10 ^ k2 * 10 = 10 ^ (k2 + 1) := by rw [pow_succ]
          _ ≤ n := hk
        have hf : n / 10 < f := by
          have hd : n / 10 < n := Nat.div_lt_self (by omega) (by norm_num)
          omega
        have hge2 := ih (n / 10) k2 hf hge
        simp only [List.length_singleton]
        omega

/-- Helper: with at most 12 digits, the `size_t` pad count is the genuine
difference. -/
theorem padCountSizeT_of_le (id : Nat) (h : (toDigits id).length ≤ 12) :
    padCountSizeT id = 12 - (toDigits id).length := by
  unfold padCountSizeT
  have h2 : (2:ℕ) ^ 64 = 18446744073709551616 := by norm_num
  rw [h2]
  omega

/-- Claim C9: for every `id < 10 ^ 12`,
`shard_id_from_str (shard_id_to_str id) = id`: emitting pads the decimal
rendering to 12 digits after `"shardId-"`, and parsing splits on the first
dash and folds the decimal suffix back exactly. -/
theorem shard_id_str_round_trip (id : Nat) (h : id < 10 ^ 12) :
    (shard_id_to_str id).map shard_id_from_str = some id := by
  have hlen : (toDigits id).length ≤ 12 :=
    toDigitsAux_length_le (id + 1) id 11 (Nat.lt_succ_self id) h
  have hpad := padCountSizeT_of_le id hlen
  have hple : padCountSizeT id ≤ 12 := by omega
  have hstr : shard_id_to_str id =
      some (shardIdHeader ++ (List.replicate (padCountSizeT id) '0' ++ toDigits id)) := by
    unfold shard_id_to_str
    simp only [if_pos hple, List.append_assoc]
  rw [hstr]
  simp only [Option.map_some']
  unfold shard_id_from_str
  rw [afterFirstDelim_header, parseDec_replicate_zero]
  unfold toDigits
  rw [parseDec_toDigitsAux (id + 1) id (Nat.lt_succ_self id)]

/-- Witness for C9 at `id = 123`. -/
theorem shard_id_str_round_trip_witness :
    (123 : Nat) < 10 ^ 12 ∧
    (shard_id_to_str 123).map shard_id_from_str = some 123 :=
  ⟨by norm_num, shard_id_str_round_trip 123 (by norm_num)⟩

/-- Claim C10: `shard_id_to_str` is well defined exactly under the
precondition `id < 10 ^ 12` (for `uint64_t` inputs): then the decimal
rendering has at most 12 characters, the `size_t` pad count is the genuine
non-negative difference, and the result is `"shardId-"` followed by exactly
12 characters; for `id ≥ 10 ^ 12` the unsigned subtraction
`12 - i.length()` wraps around to at least `2 ^ 64 - 8`, so the padding
construction fails. -/
theorem shard_id_to_str_welldefined (id : Nat) (h64 : id < 2 ^ 64) :
    (id < 10 ^ 12 →
       (toDigits id).length ≤ 12 ∧
       padCountSizeT id = 12 - (toDigits id).length ∧
       ∃ suffix : List Char, suffix.length = 12 ∧
         shard_id_to_str id = some (shardIdHeader ++ suffix)) ∧
    (10 ^ 12 ≤ id →
       2 ^ 64 - 8 ≤ padCountSizeT id ∧ shard_id_to_str id = none) := by
  constructor
  · intro h
    have hlen : (toDigits id).length ≤ 12 :=
      toDigitsAux_length_le (id + 1) id 11 (Nat.lt_succ_self id) h
    have hpad := padCountSizeT_of_le id hlen
    refine ⟨hlen, hpad,
      List.replicate (padCountSizeT id) '0' ++ toDigits id, ?_, ?_⟩
    · rw [List.length_append, List.length_replicate]
      omega
    · unfold shard_id_to_str
      simp only [if_pos (by omega : padCountSizeT id ≤ 12), List.append_assoc]
  · intro h
    have hlen13 : 13 ≤ (toDigits id).length :=
      toDigitsAux_length_ge (id + 1) id 12 (Nat.lt_succ_self id) h
    have hlen20 : (toDigits id).length ≤ 20 := by
      have h20 : id < 10 ^ (19 + 1) := lt_of_lt_of_le h64 (by norm_num)
      exact toDigitsAux_length_le (id + 1) id 19 (Nat.lt_succ_self id) h20
    have hpow : (2:ℕ) ^ 64 = 18446744073709551616 := by norm_num
    have hpad : 2 ^ 64 - 8 ≤ padCountSizeT id := by
      unfold padCountSizeT
      rw [hpow]
      omega
    refine ⟨hpad, ?_⟩
    unfold shard_id_to_str
    rw [if_neg (by omega : ¬ padCountSizeT id ≤ 12)]

/-- Witness for C10: the two regimes at `id = 123` and `id = 10 ^ 12`. -/
theorem shard_id_to_str_welldefined_witness :
    ((123 : Nat) < 2 ^ 64 ∧ (123 : Nat) < 10 ^ 12 ∧
      (10 ^ 12 : Nat) < 2 ^ 64 ∧ (10 ^ 12 : Nat) ≤ 10 ^ 12) ∧
    ((toDigits 123).length ≤ 12 ∧
      padCountSizeT 123 = 12 - (toDigits 123).length ∧
      ∃ suffix : List Char, suffix.length = 12 ∧
        shard_id_to_str 123 = some (shardIdHeader ++ suffix)) ∧
    (2 ^ 64 - 8 ≤ padCountSizeT (10 ^ 12) ∧ shard_id_to_str (10 ^ 12) = none) :=
  ⟨⟨by norm_num, by norm_num, by norm_num, le_refl _⟩,
   (shard_id_to_str_welldefined 123 (by norm_num)).1 (by norm_num),
   (shard_id_to_str_welldefined (10 ^ 12) (by norm_num)).2 (le_refl _)⟩

end KinesisShardMap
